import Mathlib

/-!
# LuaVM: the embedded-scripting bridge of BlueshiftEngine

A shallow embedding of `Engine/Source/BlueshiftEngine/Private/Script/LuaVM.cpp`.

The C++ member functions act on the `LuaVM` object, on the global `fileSystem`,
on the heap (runtime instances, file buffers) and on the host log.  All of that
is gathered in one `World` value; every effect that leaves the manager (a
constructor or destructor call, a call into the `LuaCpp` runtime, a file-system
call, a log line, the invocation of a callback) is appended to `World.trace`, in
program order.  A `std::string` is a `String` that may hold NUL characters;
`c_str()` hands the code the text before the first NUL (`c_str`), and that is
what `Str` and the `%hs` format see.
-/

namespace BE

/-! ## Results of a call -/

/-- Result of a call into the manager.  `returned` is a normal return.  `failed`
is a failure that the code detects and reports itself (an assertion, an error
value); no path of `LuaVM.cpp` produces one.  `undefinedBehaviour` is a call
through the null `state` pointer, which C++ leaves undefined. -/
inductive Outcome (α : Type) where
  | returned (value : α)
  | failed (reason : String)
  | undefinedBehaviour

/-! ## Data model -/

/-- Constants the file takes from `lua.h` and the values the runtime reports for
its version; they belong to the Lua library the engine is built against and
are a parameter of the embedding.  `LUA_ERRGCMM` exists only in Lua 5.2/5.3.
The version values are read into C `int` variables (see `toCInt`). -/
structure LuaLib where
  LUA_VERSION_NUM : Nat
  LUA_ERRRUN : Int
  LUA_ERRSYNTAX : Int
  LUA_ERRMEM : Int
  LUA_ERRGCMM : Option Int
  LUA_ERRERR : Int
  versionMajor : Int
  versionMinor : Int
  jitMajor : Int
  jitMinor : Int
  jitPatch : Int

/-- LuaJIT 2.1 (Lua 5.1 API): the values of `lua.h` and `luajit.h`. -/
def luajit21 : LuaLib :=
  { LUA_VERSION_NUM := 501, LUA_ERRRUN := 2, LUA_ERRSYNTAX := 3, LUA_ERRMEM := 4,
    LUA_ERRGCMM := none, LUA_ERRERR := 5,
    versionMajor := 5, versionMinor := 1, jitMajor := 2, jitMinor := 1, jitPatch := 0 }

/-- Lua 5.3: the values of `lua.h`. -/
def lua53 : LuaLib :=
  { LUA_VERSION_NUM := 503, LUA_ERRRUN := 2, LUA_ERRSYNTAX := 3, LUA_ERRMEM := 4,
    LUA_ERRGCMM := some 5, LUA_ERRERR := 6,
    versionMajor := 5, versionMinor := 3, jitMajor := 0, jitMinor := 0, jitPatch := 0 }

/-- Modelled from the spec: `LuaCpp::Module` is declared outside the source file.
The spec describes it as a named, mutable namespace populated by a sequence of
binding installations, later ones shadowing earlier ones without
deduplication; it is kept as the sequence of installed binding names. -/
structure Module where
  name : String
  bindings : List String
deriving DecidableEq, Repr

/-- Modelled from the spec: `module[name].SetFunc(f)` installs one binding. -/
def Module.SetFunc (name : String) (module : Module) : Module :=
  { module with bindings := module.bindings ++ [name] }

/-- An `EngineModuleCallback` (`std::function<void(LuaCpp::Module &)>`): a function
that populates the module it is handed.  `tag` identifies the function object
in the trace. -/
structure EngineModuleCallback where
  tag : Nat
  run : Module → Module

/-- The two lambdas `Init` installs on a runtime instance. -/
inductive Hook where
  | exceptionHandler
  | searcher
deriving DecidableEq, Repr

/-- Modelled from the spec: a `LuaCpp::State`, the runtime instance.  `addr`
is its address, `jit` the constructor argument, `hooks` the runtime-level hooks
in installation order and `modules` the capability modules registered on it. -/
structure LuaState where
  addr : Nat
  jit : Bool
  hooks : List Hook
  modules : List Module
deriving DecidableEq, Repr

/-- A buffer handed out by `FileSystem::LoadFile`: its address and its bytes. -/
structure Buffer where
  addr : Nat
  bytes : List Nat
deriving DecidableEq, Repr

/-- Severity of a host log line. -/
inductive Severity where
  | info
  | error
deriving DecidableEq, Repr

/-- Every effect that leaves the manager, in the order the code performs it. -/
inductive Event where
  | newState (addr : Nat) (jit : Bool)
  | deleteState (addr : Nat)
  | HandleExceptionsWith (addr : Nat)
  | RegisterSearcher (addr : Nat)
  | RegisterModule (addr : Nat) (name : String)
  | SetFunc (name : String)
  | Register (group : String)
  | Callback (tag : Nat)
  | LoadFile (path : String) (searchDirs : Bool) (result : Option Buffer)
  | RunBuffer (addr : Nat) (name : String) (data : Buffer) (size : Nat) (chunkName : String)
  | FreeFile (data : Buffer)
  | Log (severity : Severity) (line : String)
deriving DecidableEq, Repr

/-- The member variables of `LuaVM`: the owned runtime instance (a nullable
pointer), the stored host context (a nullable pointer, kept as a handle) and
the extension callback list. -/
structure LuaVM where
  state : Option LuaState
  gameWorld : Option Nat
  engineModuleCallbacks : List EngineModuleCallback

/-- Everything the code of the file reads or writes: the manager, the content
of the virtual file system, the two allocators and the trace of effects. -/
structure World where
  luaVM : LuaVM
  files : String → Option (List Nat)
  nextState : Nat
  nextBuffer : Nat
  trace : List Event

/-- Appends one effect to the trace. -/
def World.emit (e : Event) (w : World) : World :=
  { w with trace := w.trace ++ [e] }

/-! ## External collaborators -/

/-- Modelled from the spec: `new LuaCpp::State(jit)` creates a runtime instance
with no hook installed and no module registered. -/
def newState (jit : Bool) (w : World) : LuaState × World :=
  ({ addr := w.nextState, jit := jit, hooks := [], modules := [] },
   { w with nextState := w.nextState + 1, trace := w.trace ++ [Event.newState w.nextState jit] })

/-- Modelled from the spec: the macro `SAFE_DELETE(state)` destroys the instance
when there is one and resets the pointer; it does nothing on a null pointer. -/
def SAFE_DELETE (w : World) : World :=
  match w.luaVM.state with
  | none => w
  | some s =>
    { w with luaVM := { w.luaVM with state := none },
             trace := w.trace ++ [Event.deleteState s.addr] }

/-- Modelled from the spec: `LuaCpp::State::HandleExceptionsWith` installs the
error handler on the instance. -/
def LuaState.HandleExceptionsWith (s : LuaState) : LuaState :=
  { s with hooks := s.hooks ++ [Hook.exceptionHandler] }

/-- Modelled from the spec: `LuaCpp::State::RegisterSearcher` installs the
module searcher on the instance. -/
def LuaState.RegisterSearcher (s : LuaState) : LuaState :=
  { s with hooks := s.hooks ++ [Hook.searcher] }

/-- The C string `s.c_str()` of a `std::string` as the code reads it: the
characters before the first NUL. -/
def c_str (s : String) : String :=
  ⟨s.data.takeWhile (fun c => c != Char.ofNat 0)⟩

/-- A value held in a C `int`: 32 bits, two's complement. -/
def toCInt (x : Int) : Int :=
  (x + 2147483648) % 4294967296 - 2147483648

/-- Modelled from the spec: `Str::snPrintf(dest, size, fmt, ...)` leaves in `dest`
the formatted text cut to the `size - 1` characters that fit before the
terminating NUL. -/
def snPrintf (size : Nat) (text : String) : String :=
  ⟨text.data.take (size - 1)⟩

/-- Modelled from the spec: the macro `BE_ERRLOG` forwards one formatted line to
the host log at error severity. -/
def BE_ERRLOG (line : String) (w : World) : World :=
  w.emit (Event.Log Severity.error line)

/-- Modelled from the spec: `Str::DefaultFileExtension` appends the default
extension if the name has none.  Which names count as having an extension is
decided by `Str`, outside the source file, and is the parameter
`hasExtension`. -/
def DefaultFileExtension (hasExtension : String → Bool) (filename extension : String) : String :=
  if hasExtension filename then filename else filename ++ extension

/-- Modelled from the spec: one reading of "the name has an extension", used to
evaluate the searcher on concrete names: a dot occurs in the name. -/
def hasDot (filename : String) : Bool :=
  filename.data.contains '.'

/-- Modelled from the spec: `FileSystem::LoadFile(path, searchDirs, &data)`
yields a freshly allocated buffer holding the bytes of the file, or a null
pointer when no file is found.  The returned size is the length of the
buffer. -/
def LoadFile (path : String) (searchDirs : Bool) (w : World) : Option Buffer × World :=
  match w.files path with
  | none => (none, w.emit (Event.LoadFile path searchDirs none))
  | some bytes =>
    (some { addr := w.nextBuffer, bytes := bytes },
     { w with nextBuffer := w.nextBuffer + 1,
              trace := w.trace ++
                [Event.LoadFile path searchDirs (some { addr := w.nextBuffer, bytes := bytes })] })

/-- Modelled from the spec: `FileSystem::FreeFile(data)` releases a buffer. -/
def FreeFile (data : Buffer) (w : World) : World :=
  w.emit (Event.FreeFile data)

/-- Modelled from the spec: `LuaCpp::State::RunBuffer(name, data, size, chunkName)`
executes the buffer as a chunk on the instance. -/
def LuaState.RunBuffer (s : LuaState) (name : String) (data : Buffer) (size : Nat)
    (chunkName : String) (w : World) : World :=
  w.emit (Event.RunBuffer s.addr name data size chunkName)

/-! ## `LuaVM::Init`: the error handler -/

/-- The `switch (status)` of the error handler: the text for a status code, the
empty string for a code without a `case`. -/
def statusStr (lib : LuaLib) (status : Int) : String :=
  if status = lib.LUA_ERRRUN then "LUA_ERRRUN"
  else if status = lib.LUA_ERRSYNTAX then "LUA_ERRSYNTAX"
  else if status = lib.LUA_ERRMEM then "LUA_ERRMEM"
  else if 502 ≤ lib.LUA_VERSION_NUM ∧ lib.LUA_ERRGCMM = some status then "LUA_ERRGCMM"
  else if status = lib.LUA_ERRERR then "LUA_ERRERR"
  else ""

/-- The lambda handed to `HandleExceptionsWith`: one `BE_ERRLOG` of
`"%hs - %hs\n"` with `statusStr` and `msg.c_str()`.  The `std::exception_ptr`
argument is not used. -/
def exceptionHandler (lib : LuaLib) (status : Int) (msg : String) (w : World) : World :=
  BE_ERRLOG (statusStr lib status ++ " - " ++ c_str msg ++ "\n") w

/-! ## `LuaVM::Init`: the module searcher -/

/-- The tail of the searcher, reached with a loaded buffer:
`state->RunBuffer(name, data, size, name.c_str())`, `fileSystem.FreeFile(data)`,
`return true`. -/
def searcherRun (name : String) (data : Buffer) (w : World) : Outcome (Bool × World) :=
  match w.luaVM.state with
  | none => Outcome.undefinedBehaviour
  | some s =>
    Outcome.returned
      (true, FreeFile data (s.RunBuffer name data data.bytes.length (c_str name) w))

/-- The lambda handed to `RegisterSearcher`.  `Str filename = name.c_str()` is the
text of the name before its first NUL. -/
def searcher (hasExtension : String → Bool) (name : String) (w : World) : Outcome (Bool × World) :=
  let filename := DefaultFileExtension hasExtension (c_str name) ".lua"
  match LoadFile filename true w with
  | (some data, w1) => searcherRun name data w1
  | (none, w1) =>
    match LoadFile ("Scripts/" ++ filename) true w1 with
    | (some data, w2) => searcherRun name data w2
    | (none, w2) => Outcome.returned (false, w2)

/-! ## `LuaVM::Shutdown` and `LuaVM::Init` -/

/-- The body of `LuaVM::Shutdown`: `engineModuleCallbacks.Clear()`, then
`SAFE_DELETE(state)`. -/
def Shutdown (w : World) : World :=
  SAFE_DELETE { w with luaVM := { w.luaVM with engineModuleCallbacks := [] } }

/-- The body of `LuaVM::Init`: `Shutdown()` when an instance exists, then
`state = new LuaCpp::State(true)`, `state->HandleExceptionsWith(...)`,
`state->RegisterSearcher(...)`. -/
def Init (w : World) : World :=
  let w1 := if w.luaVM.state.isSome then Shutdown w else w
  match newState true w1 with
  | (s, w2) =>
    let w3 := { w2 with luaVM := { w2.luaVM with state := some s } }
    let w4 := { w3 with luaVM := { w3.luaVM with state := some s.HandleExceptionsWith },
                        trace := w3.trace ++ [Event.HandleExceptionsWith s.addr] }
    { w4 with luaVM := { w4.luaVM with state := some s.HandleExceptionsWith.RegisterSearcher },
              trace := w4.trace ++ [Event.RegisterSearcher s.addr] }

/-- The body of `LuaVM::RegisterEngineModuleCallback`:
`engineModuleCallbacks.Append(callback)`. -/
def RegisterEngineModuleCallback (callback : EngineModuleCallback) (w : World) : World :=
  { w with luaVM := { w.luaVM with
      engineModuleCallbacks := w.luaVM.engineModuleCallbacks ++ [callback] } }

/-! ## `LuaVM::InitEngineModule` -/

/-- The built-in binding groups, `RegisterMath(module)` to
`RegisterGameWorld(module)`, in the order of the calls. -/
def builtinGroups : List String :=
  ["RegisterMath", "RegisterComplex", "RegisterVec2", "RegisterVec3", "RegisterVec4",
   "RegisterColor3", "RegisterColor4", "RegisterMat2", "RegisterMat3", "RegisterMat3x4",
   "RegisterMat4", "RegisterQuaternion", "RegisterAngles", "RegisterRotation", "RegisterPlane",
   "RegisterSphere", "RegisterCylinder", "RegisterAABB", "RegisterOBB", "RegisterFrustum",
   "RegisterRay", "RegisterPoint", "RegisterRect",
   "RegisterCommon",
   "RegisterInput",
   "RegisterScreen",
   "RegisterPhysics",
   "RegisterStr",
   "RegisterFile", "RegisterFileSystem",
   "RegisterObject",
   "RegisterAsset", "RegisterTextureAsset", "RegisterShaderAsset", "RegisterMaterialAsset",
   "RegisterSkeletonAsset", "RegisterMeshAsset", "RegisterAnimAsset",
   "RegisterAnimControllerAsset", "RegisterSoundAsset", "RegisterMapAsset",
   "RegisterPrefabAsset",
   "RegisterComponent", "RegisterTransformComponent", "RegisterColliderComponent",
   "RegisterBoxColliderComponent", "RegisterSphereColliderComponent",
   "RegisterCylinderColliderComponent", "RegisterCapsuleColliderComponent",
   "RegisterMeshColliderComponent", "RegisterRigidBodyComponent", "RegisterSensorComponent",
   "RegisterJointComponent", "RegisterFixedJointComponent", "RegisterHingeJointComponent",
   "RegisterSocketJointComponent", "RegisterSpringJointComponent",
   "RegisterCharacterJointComponent", "RegisterConstantForceComponent",
   "RegisterCharacterControllerComponent", "RegisterRenderableComponent",
   "RegisterMeshRendererComponent", "RegisterStaticMeshRendererComponent",
   "RegisterSkinnedMeshRendererComponent", "RegisterAnimatorComponent",
   "RegisterTextRendererComponent", "RegisterParticleSystemComponent",
   "RegisterCameraComponent", "RegisterLightComponent", "RegisterAudioListenerComponent",
   "RegisterAudioSourceComponent", "RegisterSplineComponent", "RegisterScriptComponent",
   "RegisterEntity", "RegisterGameWorld"]

/-- One statement `module[name].SetFunc(...)` of the populating lambda. -/
def setFunc (name : String) (st : Module × World) : Module × World :=
  (st.1.SetFunc name, st.2.emit (Event.SetFunc name))

/-- One statement `RegisterX(module)` of the populating lambda.  The bodies of
the `Register*` member functions are in other files; what each does to the
module is the parameter `Register`. -/
def registerGroup (Register : String → Module → Module) (group : String)
    (st : Module × World) : Module × World :=
  (Register group st.1, st.2.emit (Event.Register group))

/-- One call `engineModuleCallbacks[i](module)`. -/
def invokeCallback (c : EngineModuleCallback) (st : Module × World) : Module × World :=
  (c.run st.1, st.2.emit (Event.Callback c.tag))

/-- The loop `for (int i = 0; i < engineModuleCallbacks.Count(); i++)`, entered
at index `i`. -/
def callbackLoop (i : Nat) (st : Module × World) : Module × World :=
  if h : i < st.2.luaVM.engineModuleCallbacks.length then
    callbackLoop (i + 1) (invokeCallback (st.2.luaVM.engineModuleCallbacks.get ⟨i, h⟩) st)
  else st
termination_by st.2.luaVM.engineModuleCallbacks.length - i
decreasing_by
  simp only [invokeCallback, World.emit]
  omega

/-- The lambda handed to `RegisterModule("blueshift", ...)`: the five core
bindings, the built-in groups, then the extension callbacks. -/
def engineModule (Register : String → Module → Module) (module : Module) (w : World) :
    Module × World :=
  let st := setFunc "log" (module, w)
  let st := setFunc "unit_to_centi" st
  let st := setFunc "unit_to_meter" st
  let st := setFunc "centi_to_unit" st
  let st := setFunc "meter_to_unit" st
  let st := builtinGroups.foldl (fun st group => registerGroup Register group st) st
  callbackLoop 0 st

/-- Modelled from the spec: `LuaCpp::State::RegisterModule(name, f)` creates the
named module, has `f` populate it during the call, and hands the populated
module to the runtime instance. -/
def LuaState.RegisterModule (s : LuaState) (name : String)
    (f : Module → World → Module × World) (w : World) : World :=
  match f { name := name, bindings := [] } (w.emit (Event.RegisterModule s.addr name)) with
  | (m, w1) =>
    { w1 with luaVM := { w1.luaVM with state := some { s with modules := s.modules ++ [m] } } }

/-- The body of `LuaVM::InitEngineModule`: stores the host context, then
`state->RegisterModule("blueshift", ...)`. -/
def InitEngineModule (Register : String → Module → Module) (gameWorld : Nat) (w : World) :
    Outcome World :=
  let w1 := { w with luaVM := { w.luaVM with gameWorld := some gameWorld } }
  match w1.luaVM.state with
  | none => Outcome.undefinedBehaviour
  | some s => Outcome.returned (s.RegisterModule "blueshift" (engineModule Register) w1)

/-! ## Version introspection -/

/-- The body of `LuaVM::GetLuaVersion`: `state->Version(major, minor)` into two
`int`s, then `"%i.%i"` formatted into `static char versionString[32]`. -/
def GetLuaVersion (lib : LuaLib) (w : World) : Outcome String :=
  match w.luaVM.state with
  | none => Outcome.undefinedBehaviour
  | some _ =>
    Outcome.returned
      (snPrintf 32
        (toString (toCInt lib.versionMajor) ++ "." ++ toString (toCInt lib.versionMinor)))

/-- The body of `LuaVM::GetLuaJitVersion`: `state->JitVersion(major, minor, patch)`
into three `int`s, then `"%i.%i.%i"` formatted into
`static char versionString[32]`. -/
def GetLuaJitVersion (lib : LuaLib) (w : World) : Outcome String :=
  match w.luaVM.state with
  | none => Outcome.undefinedBehaviour
  | some _ =>
    Outcome.returned
      (snPrintf 32
        (toString (toCInt lib.jitMajor) ++ "." ++ toString (toCInt lib.jitMinor) ++ "." ++
          toString (toCInt lib.jitPatch)))

/-! ## Sequences of lifecycle calls -/

/-- A lifecycle call. -/
inductive Op where
  | Init
  | Shutdown
deriving DecidableEq, Repr

/-- Performs one lifecycle call. -/
def Op.run : Op → World → World
  | Op.Init, w => BE.Init w
  | Op.Shutdown, w => BE.Shutdown w

/-- Performs a sequence of lifecycle calls, first to last. -/
def runOps : List Op → World → World
  | [], w => w
  | op :: ops, w => runOps ops (op.run w)

/-! ## Reading a trace -/

/-- Instances created minus instances destroyed over a trace. -/
def liveCount : List Event → Int
  | [] => 0
  | Event.newState _ _ :: t => liveCount t + 1
  | Event.deleteState _ :: t => liveCount t - 1
  | _ :: t => liveCount t

/-- The paths handed to `LoadFile`, in call order. -/
def loadPaths : List Event → List String
  | [] => []
  | Event.LoadFile path _ _ :: t => path :: loadPaths t
  | _ :: t => loadPaths t

/-- The buffers `LoadFile` handed out, in call order. -/
def loadedBuffers : List Event → List Buffer
  | [] => []
  | Event.LoadFile _ _ (some b) :: t => b :: loadedBuffers t
  | _ :: t => loadedBuffers t

/-- The buffers handed to `FreeFile`, in call order. -/
def freedBuffers : List Event → List Buffer
  | [] => []
  | Event.FreeFile b :: t => b :: freedBuffers t
  | _ :: t => freedBuffers t

/-- The chunks executed: name, bytes, size and chunk name of every `RunBuffer`. -/
def chunksRun : List Event → List (String × List Nat × Nat × String)
  | [] => []
  | Event.RunBuffer _ name data size chunkName :: t =>
    (name, data.bytes, size, chunkName) :: chunksRun t
  | _ :: t => chunksRun t

/-- The tags of the callbacks invoked, in call order. -/
def callbacksInvoked : List Event → List Nat
  | [] => []
  | Event.Callback tag :: t => tag :: callbacksInvoked t
  | _ :: t => callbacksInvoked t

/-- The instances alive over the trace are the manager's: created minus
destroyed is one when the manager holds an instance and zero when it does
not, and at no moment of the trace have more than one been alive. -/
def OwnsLive (w : World) : Prop :=
  liveCount w.trace = (if w.luaVM.state.isSome = true then 1 else 0) ∧
  ∀ k, liveCount (w.trace.take k) ≤ 1

/-! ## Concrete worlds -/

/-- A manager that has never been initialised, over the file system `files`. -/
def World.fresh (files : String → Option (List Nat)) : World :=
  { luaVM := { state := none, gameWorld := none, engineModuleCallbacks := [] },
    files := files, nextState := 0, nextBuffer := 0, trace := [] }

/-- A file system holding only `Scripts/util.lua`. -/
def scriptsOnly : String → Option (List Nat) :=
  fun path => if path = "Scripts/util.lua" then some [114, 101, 116] else none

/-- A file system holding `util.lua` and `Scripts/util.lua`, with different bytes. -/
def bothPlaces : String → Option (List Nat) :=
  fun path =>
    if path = "util.lua" then some [45, 45]
    else if path = "Scripts/util.lua" then some [114, 101, 116] else none

/-- A file system holding only `ut.lua`. -/
def utOnly : String → Option (List Nat) :=
  fun path => if path = "ut.lua" then some [45, 45] else none

/-- The empty file system. -/
def noFiles : String → Option (List Nat) :=
  fun _ => none

/-- A callback that installs the binding `name`. -/
def bindingCallback (tag : Nat) (name : String) : EngineModuleCallback :=
  { tag := tag, run := Module.SetFunc name }

/-- An initialised manager on which two callbacks, tagged 1 and 2, have been
registered in that order. -/
def twoCallbacks : World :=
  RegisterEngineModuleCallback (bindingCallback 2 "second")
    (RegisterEngineModuleCallback (bindingCallback 1 "first") (Init (World.fresh noFiles)))

/-- A manager without a runtime instance on which one callback has been
registered. -/
def registeredBeforeInit : World :=
  RegisterEngineModuleCallback (bindingCallback 1 "first") (World.fresh noFiles)

/-- The `case` labels of the error handler's `switch`, as the preprocessor leaves
them. -/
def caseLabels (lib : LuaLib) : List Int :=
  [lib.LUA_ERRRUN, lib.LUA_ERRSYNTAX, lib.LUA_ERRMEM] ++
    (if 502 ≤ lib.LUA_VERSION_NUM then lib.LUA_ERRGCMM.toList else []) ++
    [lib.LUA_ERRERR]

/-! ## The searcher, case by case -/

/-- A name without a NUL character is its own C string. -/
theorem c_str_eq_self (s : String) (h : Char.ofNat 0 ∉ s.data) : c_str s = s := by
  have htake : s.data.takeWhile (fun c => c != Char.ofNat 0) = s.data := by
    rw [List.takeWhile_eq_self_iff]
    intro c hc
    have hne : c ≠ Char.ofNat 0 := fun heq => h (heq ▸ hc)
    simpa using hne
  cases s with
  | mk data =>
    simp only [c_str] at htake ⊢
    rw [htake]

/-- The searcher when the root candidate exists: one load, the chunk, the release. -/
theorem searcher_root (hasExtension : String → Bool) (name : String) (w : World) (s : LuaState)
    (bytes : List Nat) (hs : w.luaVM.state = some s)
    (hroot : w.files (DefaultFileExtension hasExtension (c_str name) ".lua") = some bytes) :
    searcher hasExtension name w = Outcome.returned (true,
      { w with
        nextBuffer := w.nextBuffer + 1,
        trace := w.trace ++
          [Event.LoadFile (DefaultFileExtension hasExtension (c_str name) ".lua") true
             (some { addr := w.nextBuffer, bytes := bytes }),
           Event.RunBuffer s.addr name { addr := w.nextBuffer, bytes := bytes } bytes.length
             (c_str name),
           Event.FreeFile { addr := w.nextBuffer, bytes := bytes }] }) := by
  simp [searcher, LoadFile, hroot, searcherRun, hs, FreeFile, LuaState.RunBuffer, World.emit]

/-- The searcher when only the `Scripts/` candidate exists: two loads, the chunk,
the release. -/
theorem searcher_scripts (hasExtension : String → Bool) (name : String) (w : World)
    (s : LuaState) (bytes : List Nat) (hs : w.luaVM.state = some s)
    (hroot : w.files (DefaultFileExtension hasExtension (c_str name) ".lua") = none)
    (hscripts : w.files ("Scripts/" ++ DefaultFileExtension hasExtension (c_str name) ".lua") =
      some bytes) :
    searcher hasExtension name w = Outcome.returned (true,
      { w with
        nextBuffer := w.nextBuffer + 1,
        trace := w.trace ++
          [Event.LoadFile (DefaultFileExtension hasExtension (c_str name) ".lua") true none,
           Event.LoadFile ("Scripts/" ++ DefaultFileExtension hasExtension (c_str name) ".lua")
             true (some { addr := w.nextBuffer, bytes := bytes }),
           Event.RunBuffer s.addr name { addr := w.nextBuffer, bytes := bytes } bytes.length
             (c_str name),
           Event.FreeFile { addr := w.nextBuffer, bytes := bytes }] }) := by
  simp [searcher, LoadFile, hroot, hscripts, searcherRun, hs, FreeFile, LuaState.RunBuffer,
    World.emit]

/-- The searcher when neither candidate exists: two loads and `false`. -/
theorem searcher_missing (hasExtension : String → Bool) (name : String) (w : World)
    (hroot : w.files (DefaultFileExtension hasExtension (c_str name) ".lua") = none)
    (hscripts : w.files ("Scripts/" ++ DefaultFileExtension hasExtension (c_str name) ".lua") =
      none) :
    searcher hasExtension name w = Outcome.returned (false,
      { w with
        trace := w.trace ++
          [Event.LoadFile (DefaultFileExtension hasExtension (c_str name) ".lua") true none,
           Event.LoadFile ("Scripts/" ++ DefaultFileExtension hasExtension (c_str name) ".lua")
             true none] }) := by
  simp [searcher, LoadFile, hroot, hscripts, World.emit]

/-- A name with an embedded NUL is cut at the NUL: over a file system holding
only `ut.lua`, the name `ut`, NUL, `il` loads `ut.lua` and runs it under the
chunk name `ut`. -/
theorem searcher_cuts_name_at_NUL :
    ∃ w1, searcher hasDot "ut\x00il" (Init (World.fresh utOnly)) = Outcome.returned (true, w1) ∧
      w1.trace = (Init (World.fresh utOnly)).trace ++
        [Event.LoadFile "ut.lua" true (some { addr := 0, bytes := [45, 45] }),
         Event.RunBuffer 0 "ut\x00il" { addr := 0, bytes := [45, 45] } 2 "ut",
         Event.FreeFile { addr := 0, bytes := [45, 45] }] :=
  ⟨_, searcher_root hasDot "ut\x00il" (Init (World.fresh utOnly)) _ [45, 45] rfl (by decide),
    by decide⟩

/-! ## The module searcher: claims C1, C2 and C9 -/

/-- C1: on a manager holding a live runtime instance, for every logical module
name (text without a NUL character) and every file system, the searcher
returns `true` if and only if a file exists at `f` or at `"Scripts/" + f`,
where `f` is the name with `".lua"` appended when the name has no extension;
it asks for `f` first and asks for `"Scripts/" + f` only when `f` is not
found. -/
theorem searcher_true_iff_candidate_exists (hasExtension : String → Bool) (name : String)
    (w : World) (s : LuaState) (hs : w.luaVM.state = some s)
    (hname : Char.ofNat 0 ∉ name.data) :
    DefaultFileExtension hasExtension name ".lua" =
        (if hasExtension name = true then name else name ++ ".lua") ∧
    ∃ found w1 new,
      searcher hasExtension name w = Outcome.returned (found, w1) ∧
      w1.trace = w.trace ++ new ∧
      (found = true ↔
        (w.files (DefaultFileExtension hasExtension name ".lua")).isSome = true ∨
        (w.files ("Scripts/" ++ DefaultFileExtension hasExtension name ".lua")).isSome = true) ∧
      loadPaths new =
        (if (w.files (DefaultFileExtension hasExtension name ".lua")).isSome = true
         then [DefaultFileExtension hasExtension name ".lua"]
         else [DefaultFileExtension hasExtension name ".lua",
               "Scripts/" ++ DefaultFileExtension hasExtension name ".lua"]) := by
  have hc : c_str name = name := c_str_eq_self name hname
  refine ⟨rfl, ?_⟩
  cases hroot : w.files (DefaultFileExtension hasExtension name ".lua") with
  | some bytes =>
    have h := searcher_root hasExtension name w s bytes hs (by rw [hc]; exact hroot)
    rw [hc] at h
    exact ⟨true, _, _, h, rfl, by simp, by simp [loadPaths]⟩
  | none =>
    cases hscripts : w.files ("Scripts/" ++ DefaultFileExtension hasExtension name ".lua") with
    | some bytes =>
      have h := searcher_scripts hasExtension name w s bytes hs (by rw [hc]; exact hroot)
        (by rw [hc]; exact hscripts)
      rw [hc] at h
      exact ⟨true, _, _, h, rfl, by simp, by simp [loadPaths]⟩
    | none =>
      have h := searcher_missing hasExtension name w (by rw [hc]; exact hroot)
        (by rw [hc]; exact hscripts)
      rw [hc] at h
      exact ⟨false, _, _, h, rfl, by simp, by simp [loadPaths]⟩

/-- The name `"util"` over a file system holding only `Scripts/util.lua` resolves
on the second candidate; over the empty file system the searcher returns
`false` after asking for both candidates. -/
theorem searcher_true_iff_candidate_exists_witness :
    Char.ofNat 0 ∉ ("util" : String).data ∧
    (∃ w1 new,
      searcher hasDot "util" (Init (World.fresh scriptsOnly)) = Outcome.returned (true, w1) ∧
      w1.trace = (Init (World.fresh scriptsOnly)).trace ++ new ∧
      loadPaths new = ["util.lua", "Scripts/util.lua"]) ∧
    (∃ w1 new,
      searcher hasDot "util" (Init (World.fresh noFiles)) = Outcome.returned (false, w1) ∧
      w1.trace = (Init (World.fresh noFiles)).trace ++ new ∧
      loadPaths new = ["util.lua", "Scripts/util.lua"]) := by
  have hname : Char.ofNat 0 ∉ ("util" : String).data := by decide
  refine ⟨hname, ?_, ?_⟩
  · obtain ⟨_, found, w1, new, hr, ht, hiff, hl⟩ :=
      searcher_true_iff_candidate_exists hasDot "util" (Init (World.fresh scriptsOnly)) _ rfl
        hname
    have hfound : found = true := hiff.2 (Or.inr (by decide))
    subst hfound
    exact ⟨w1, new, hr, ht, by rw [hl]; decide⟩
  · obtain ⟨_, found, w1, new, hr, ht, hiff, hl⟩ :=
      searcher_true_iff_candidate_exists hasDot "util" (Init (World.fresh noFiles)) _ rfl hname
    have hfound : found = false := by
      cases found with
      | false => rfl
      | true => exact absurd (hiff.1 rfl) (by decide)
    subst hfound
    exact ⟨w1, new, hr, ht, by rw [hl]; decide⟩

/-- C2: on a manager holding a live runtime instance, for every logical module
name (text without a NUL character), when the name resolves the searcher
executes exactly one chunk, named by the logical name as supplied, whose
bytes are those of the root candidate when it exists and otherwise those of
the `Scripts/` candidate; when the name resolves under neither, no chunk is
executed. -/
theorem searcher_runs_one_chunk (hasExtension : String → Bool) (name : String)
    (w : World) (s : LuaState) (hs : w.luaVM.state = some s)
    (hname : Char.ofNat 0 ∉ name.data) :
    ∃ found w1 new,
      searcher hasExtension name w = Outcome.returned (found, w1) ∧
      w1.trace = w.trace ++ new ∧
      (∀ bytes, w.files (DefaultFileExtension hasExtension name ".lua") = some bytes →
        chunksRun new = [(name, bytes, bytes.length, name)]) ∧
      (∀ bytes, w.files (DefaultFileExtension hasExtension name ".lua") = none →
        w.files ("Scripts/" ++ DefaultFileExtension hasExtension name ".lua") = some bytes →
        chunksRun new = [(name, bytes, bytes.length, name)]) ∧
      (w.files (DefaultFileExtension hasExtension name ".lua") = none →
        w.files ("Scripts/" ++ DefaultFileExtension hasExtension name ".lua") = none →
        chunksRun new = []) := by
  have hc : c_str name = name := c_str_eq_self name hname
  cases hroot : w.files (DefaultFileExtension hasExtension name ".lua") with
  | some bytes =>
    have h := searcher_root hasExtension name w s bytes hs (by rw [hc]; exact hroot)
    rw [hc] at h
    exact ⟨true, _, _, h, rfl, by simp [chunksRun], by simp, by simp⟩
  | none =>
    cases hscripts : w.files ("Scripts/" ++ DefaultFileExtension hasExtension name ".lua") with
    | some bytes =>
      have h := searcher_scripts hasExtension name w s bytes hs (by rw [hc]; exact hroot)
        (by rw [hc]; exact hscripts)
      rw [hc] at h
      exact ⟨true, _, _, h, rfl, by simp, by simp [chunksRun], by simp⟩
    | none =>
      have h := searcher_missing hasExtension name w (by rw [hc]; exact hroot)
        (by rw [hc]; exact hscripts)
      rw [hc] at h
      exact ⟨false, _, _, h, rfl, by simp, by simp, by simp [chunksRun]⟩

/-- With `util.lua` and `Scripts/util.lua` both present the chunk `"util"` runs
the bytes of the root file; with only `Scripts/util.lua` it runs the bytes of
that file; over the empty file system nothing runs. -/
theorem searcher_runs_one_chunk_witness :
    Char.ofNat 0 ∉ ("util" : String).data ∧
    (∃ found w1 new,
      searcher hasDot "util" (Init (World.fresh bothPlaces)) = Outcome.returned (found, w1) ∧
      w1.trace = (Init (World.fresh bothPlaces)).trace ++ new ∧
      chunksRun new = [("util", [45, 45], 2, "util")]) ∧
    (∃ found w1 new,
      searcher hasDot "util" (Init (World.fresh scriptsOnly)) = Outcome.returned (found, w1) ∧
      w1.trace = (Init (World.fresh scriptsOnly)).trace ++ new ∧
      chunksRun new = [("util", [114, 101, 116], 3, "util")]) ∧
    (∃ found w1 new,
      searcher hasDot "util" (Init (World.fresh noFiles)) = Outcome.returned (found, w1) ∧
      w1.trace = (Init (World.fresh noFiles)).trace ++ new ∧
      chunksRun new = []) := by
  have hname : Char.ofNat 0 ∉ ("util" : String).data := by decide
  refine ⟨hname, ?_, ?_, ?_⟩
  · obtain ⟨found, w1, new, hr, ht, hroot, _, _⟩ :=
      searcher_runs_one_chunk hasDot "util" (Init (World.fresh bothPlaces)) _ rfl hname
    exact ⟨found, w1, new, hr, ht, hroot [45, 45] (by decide)⟩
  · obtain ⟨found, w1, new, hr, ht, _, hscripts, _⟩ :=
      searcher_runs_one_chunk hasDot "util" (Init (World.fresh scriptsOnly)) _ rfl hname
    exact ⟨found, w1, new, hr, ht, hscripts [114, 101, 116] (by decide) (by decide)⟩
  · obtain ⟨found, w1, new, hr, ht, _, _, hnone⟩ :=
      searcher_runs_one_chunk hasDot "util" (Init (World.fresh noFiles)) _ rfl hname
    exact ⟨found, w1, new, hr, ht, hnone (by decide) (by decide)⟩

/-- C9: on a manager holding a live runtime instance, for every name and every
file system, one run of the searcher hands to `FreeFile` exactly the buffers
`LoadFile` handed out; when it returns `true` the run ends with the
execution of the single loaded buffer followed by its release, and nothing
is released or executed before; when it returns `false` nothing was loaded
and `FreeFile` is not called. -/
theorem searcher_frees_what_it_loaded (hasExtension : String → Bool) (name : String)
    (w : World) (s : LuaState) (hs : w.luaVM.state = some s) :
    ∃ found w1 new,
      searcher hasExtension name w = Outcome.returned (found, w1) ∧
      w1.trace = w.trace ++ new ∧
      freedBuffers new = loadedBuffers new ∧
      (found = true → ∃ before data,
        new = before ++
          [Event.RunBuffer s.addr name data data.bytes.length (c_str name),
           Event.FreeFile data] ∧
        loadedBuffers before = [data] ∧ freedBuffers before = [] ∧ chunksRun before = []) ∧
      (found = false → loadedBuffers new = [] ∧ freedBuffers new = []) := by
  cases hroot : w.files (DefaultFileExtension hasExtension (c_str name) ".lua") with
  | some bytes =>
    refine ⟨true, _, _, searcher_root hasExtension name w s bytes hs hroot, rfl,
      by simp [freedBuffers, loadedBuffers], ?_, by simp⟩
    intro _
    exact ⟨[Event.LoadFile (DefaultFileExtension hasExtension (c_str name) ".lua") true
      (some { addr := w.nextBuffer, bytes := bytes })], { addr := w.nextBuffer, bytes := bytes },
      by simp, by simp [loadedBuffers], by simp [freedBuffers], by simp [chunksRun]⟩
  | none =>
    cases hscripts :
        w.files ("Scripts/" ++ DefaultFileExtension hasExtension (c_str name) ".lua") with
    | some bytes =>
      refine ⟨true, _, _, searcher_scripts hasExtension name w s bytes hs hroot hscripts, rfl,
        by simp [freedBuffers, loadedBuffers], ?_, by simp⟩
      intro _
      exact ⟨[Event.LoadFile (DefaultFileExtension hasExtension (c_str name) ".lua") true none,
        Event.LoadFile ("Scripts/" ++ DefaultFileExtension hasExtension (c_str name) ".lua")
          true (some { addr := w.nextBuffer, bytes := bytes })],
        { addr := w.nextBuffer, bytes := bytes },
        by simp, by simp [loadedBuffers], by simp [freedBuffers], by simp [chunksRun]⟩
    | none =>
      exact ⟨false, _, _, searcher_missing hasExtension name w hroot hscripts, rfl,
        by simp [freedBuffers, loadedBuffers], by simp,
        by simp [freedBuffers, loadedBuffers]⟩

/-- Over a file system holding only `Scripts/util.lua`, the run for `"util"` frees
what it loaded; so does the run for a name with an embedded NUL over a file
system holding only `ut.lua`. -/
theorem searcher_frees_what_it_loaded_witness :
    (∃ found w1 new,
      searcher hasDot "util" (Init (World.fresh scriptsOnly)) = Outcome.returned (found, w1) ∧
      w1.trace = (Init (World.fresh scriptsOnly)).trace ++ new ∧
      freedBuffers new = loadedBuffers new) ∧
    (∃ found w1 new,
      searcher hasDot "ut\x00il" (Init (World.fresh utOnly)) = Outcome.returned (found, w1) ∧
      w1.trace = (Init (World.fresh utOnly)).trace ++ new ∧
      freedBuffers new = loadedBuffers new) := by
  constructor
  · obtain ⟨found, w1, new, hr, ht, hfree, _, _⟩ :=
      searcher_frees_what_it_loaded hasDot "util" (Init (World.fresh scriptsOnly)) _ rfl
    exact ⟨found, w1, new, hr, ht, hfree⟩
  · obtain ⟨found, w1, new, hr, ht, hfree, _, _⟩ :=
      searcher_frees_what_it_loaded hasDot "ut\x00il" (Init (World.fresh utOnly)) _ rfl
    exact ⟨found, w1, new, hr, ht, hfree⟩

/-! ## The lifecycle: claim C3 -/

/-- Counting instances over a concatenated trace. -/
theorem liveCount_append (a b : List Event) : liveCount (a ++ b) = liveCount a + liveCount b := by
  induction a with
  | nil => simp [liveCount]
  | cons e t ih =>
    cases e <;> simp [liveCount, ih] <;> omega

/-- What `Shutdown` adds to the trace: the destruction of the instance, if any. -/
theorem Shutdown_trace (w : World) :
    (Shutdown w).trace = w.trace ++
      (match w.luaVM.state with
       | some old => [Event.deleteState old.addr]
       | none => []) := by
  cases hs : w.luaVM.state <;> simp [Shutdown, SAFE_DELETE, hs]

/-- After `Shutdown` the manager holds no instance. -/
theorem Shutdown_state (w : World) : (Shutdown w).luaVM.state = none := by
  cases hs : w.luaVM.state <;> simp [Shutdown, SAFE_DELETE, hs]

/-- After `Shutdown` the extension callback list is empty. -/
theorem Shutdown_callbacks (w : World) : (Shutdown w).luaVM.engineModuleCallbacks = [] := by
  cases hs : w.luaVM.state <;> simp [Shutdown, SAFE_DELETE, hs]

/-- What `Init` adds to the trace. -/
theorem Init_trace (w : World) :
    (Init w).trace = w.trace ++
      (match w.luaVM.state with
       | some old => [Event.deleteState old.addr]
       | none => []) ++
      [Event.newState w.nextState true, Event.HandleExceptionsWith w.nextState,
       Event.RegisterSearcher w.nextState] := by
  cases hs : w.luaVM.state <;> simp [Init, Shutdown, SAFE_DELETE, newState, hs]

/-- The instance the manager holds after `Init`. -/
theorem Init_state (w : World) :
    (Init w).luaVM.state = some
      { addr := w.nextState, jit := true,
        hooks := [Hook.exceptionHandler, Hook.searcher], modules := [] } := by
  cases hs : w.luaVM.state <;>
    simp [Init, Shutdown, SAFE_DELETE, newState, hs, LuaState.HandleExceptionsWith,
      LuaState.RegisterSearcher]

/-- Extending a trace by events that never raise the count above one keeps the
count at most one at every moment. -/
theorem liveCount_take_append (a d : List Event) (ha : ∀ k, liveCount (a.take k) ≤ 1)
    (hd : ∀ j, liveCount a + liveCount (d.take j) ≤ 1) :
    ∀ k, liveCount ((a ++ d).take k) ≤ 1 := by
  intro k
  rw [List.take_append_eq_append_take, liveCount_append]
  by_cases hk : k ≤ a.length
  · have h0 : k - a.length = 0 := by omega
    have := ha k
    simp [h0, liveCount]
    exact this
  · have hfull : a.take k = a := List.take_of_length_le (by omega)
    rw [hfull]
    exact hd _

/-- A lifecycle call keeps the live instances the manager's. -/
theorem OwnsLive_run (op : Op) (w : World) (h : OwnsLive w) : OwnsLive (op.run w) := by
  obtain ⟨hcount, hpeak⟩ := h
  cases op with
  | Init =>
    refine ⟨?_, ?_⟩
    · simp only [Op.run, Init_state, Init_trace, liveCount_append]
      cases hs : w.luaVM.state <;> simp [hs, liveCount] at hcount ⊢ <;> omega
    · simp only [Op.run, Init_trace, List.append_assoc]
      apply liveCount_take_append _ _ hpeak
      intro j
      cases hs : w.luaVM.state with
      | none =>
        simp [hs] at hcount
        rw [hcount]
        rcases j with _ | _ | _ | _ | j <;> simp [liveCount]
      | some old =>
        simp [hs] at hcount
        rw [hcount]
        rcases j with _ | _ | _ | _ | _ | j <;> simp [liveCount]
  | Shutdown =>
    refine ⟨?_, ?_⟩
    · simp only [Op.run, Shutdown_state, Shutdown_trace, liveCount_append]
      cases hs : w.luaVM.state <;> simp [hs, liveCount] at hcount ⊢ <;> omega
    · simp only [Op.run, Shutdown_trace]
      apply liveCount_take_append _ _ hpeak
      intro j
      cases hs : w.luaVM.state with
      | none =>
        simp [hs] at hcount
        rw [hcount]
        simp [liveCount]
      | some old =>
        simp [hs] at hcount
        rw [hcount]
        rcases j with _ | _ | j <;> simp [liveCount]

/-- A sequence of lifecycle calls keeps the live instances the manager's. -/
theorem OwnsLive_runOps (ops : List Op) (w : World) (h : OwnsLive w) :
    OwnsLive (runOps ops w) := by
  induction ops generalizing w with
  | nil => exact h
  | cons op ops ih => exact ih _ (OwnsLive_run op w h)

/-- A manager that has never been initialised owns the (zero) live instances. -/
theorem OwnsLive_fresh (files : String → Option (List Nat)) : OwnsLive (World.fresh files) := by
  refine ⟨by simp [World.fresh, liveCount], ?_⟩
  intro k
  simp [World.fresh, liveCount]

/-- C3: from every manager state, `Init` ends holding one runtime instance,
created during the call with JIT requested, on which the error handler and
then the module searcher are installed and no module is registered; an
instance held before the call is destroyed before the new one is created;
and over every sequence of `Init` and `Shutdown` calls the number of live
instances (created minus destroyed) never exceeds one, at any moment. -/
theorem Init_replaces_the_instance (w : World) :
    (Init w).luaVM.state = some
      { addr := w.nextState, jit := true,
        hooks := [Hook.exceptionHandler, Hook.searcher], modules := [] } ∧
    (Init w).trace = w.trace ++
      (match w.luaVM.state with
       | some old => [Event.deleteState old.addr]
       | none => []) ++
      [Event.newState w.nextState true, Event.HandleExceptionsWith w.nextState,
       Event.RegisterSearcher w.nextState] ∧
    (OwnsLive w → liveCount (Init w).trace = 1) ∧
    (OwnsLive w → ∀ ops : List Op,
      OwnsLive (runOps ops w) ∧ ∀ k, liveCount ((runOps ops w).trace.take k) ≤ 1) := by
  refine ⟨Init_state w, Init_trace w, ?_, ?_⟩
  · intro h
    have h1 := (OwnsLive_run Op.Init w h).1
    simpa [Op.run, Init_state] using h1
  · intro h ops
    exact ⟨OwnsLive_runOps ops w h, (OwnsLive_runOps ops w h).2⟩

/-- A second `Init` destroys instance 0 before it creates instance 1, and over
`Init, Init, Shutdown, Init` from a fresh manager at most one instance is
alive at any moment. -/
theorem Init_replaces_the_instance_witness :
    OwnsLive (Init (World.fresh noFiles)) ∧
    (Init (Init (World.fresh noFiles))).luaVM.state = some
      { addr := 1, jit := true, hooks := [Hook.exceptionHandler, Hook.searcher], modules := [] } ∧
    (Init (Init (World.fresh noFiles))).trace =
      [Event.newState 0 true, Event.HandleExceptionsWith 0, Event.RegisterSearcher 0,
       Event.deleteState 0,
       Event.newState 1 true, Event.HandleExceptionsWith 1, Event.RegisterSearcher 1] ∧
    liveCount (Init (Init (World.fresh noFiles))).trace = 1 ∧
    ∀ k, liveCount
      ((runOps [Op.Init, Op.Shutdown, Op.Init] (Init (World.fresh noFiles))).trace.take k) ≤ 1 := by
  have hown : OwnsLive (Init (World.fresh noFiles)) :=
    OwnsLive_run Op.Init _ (OwnsLive_fresh noFiles)
  obtain ⟨hstate, htrace, hone, hseq⟩ := Init_replaces_the_instance (Init (World.fresh noFiles))
  exact ⟨hown, hstate, htrace, hone hown, (hseq hown _).2⟩

/-! ## Populating the engine module: claim C4 -/

/-- The built-in groups, run in order, install their bindings and leave one
`Register` event each. -/
theorem registerGroup_foldl (Register : String → Module → Module) (groups : List String)
    (module : Module) (w : World) :
    groups.foldl (fun st group => registerGroup Register group st) (module, w) =
      (groups.foldl (fun m group => Register group m) module,
       { w with trace := w.trace ++ groups.map Event.Register }) := by
  induction groups generalizing module w with
  | nil => simp
  | cons g gs ih =>
    rw [List.foldl_cons]
    have hstep : registerGroup Register g (module, w) =
        (Register g module, { w with trace := w.trace ++ [Event.Register g] }) := rfl
    rw [hstep, ih]
    simp

/-- The callback loop entered at index `i` invokes the callbacks from index `i`
on, in list order, once each. -/
theorem callbackLoop_eq (n : Nat) (i : Nat) (module : Module) (w : World)
    (hn : w.luaVM.engineModuleCallbacks.length - i = n) :
    callbackLoop i (module, w) =
      ((w.luaVM.engineModuleCallbacks.drop i).foldl (fun m c => c.run m) module,
       { w with trace := w.trace ++
           (w.luaVM.engineModuleCallbacks.drop i).map (fun c => Event.Callback c.tag) }) := by
  induction n generalizing i module w with
  | zero =>
    have hi : w.luaVM.engineModuleCallbacks.length ≤ i := by omega
    rw [callbackLoop]
    simp [Nat.not_lt.mpr hi, List.drop_of_length_le hi]
  | succ n ih =>
    have hi : i < w.luaVM.engineModuleCallbacks.length := by omega
    rw [callbackLoop]
    simp only [hi, dite_true, invokeCallback, World.emit]
    rw [ih]
    · conv_rhs => rw [List.drop_eq_getElem_cons hi]
      simp only [List.foldl_cons, List.map_cons, List.append_assoc, List.singleton_append]
      rfl
    · simp only
      omega

/-- The populating lambda: the five core bindings, then every built-in group,
then every extension callback in list order; the manager is not changed. -/
theorem engineModule_eq (Register : String → Module → Module) (module : Module) (w : World) :
    engineModule Register module w =
      (w.luaVM.engineModuleCallbacks.foldl (fun m c => c.run m)
         (builtinGroups.foldl (fun m group => Register group m)
           (["log", "unit_to_centi", "unit_to_meter", "centi_to_unit", "meter_to_unit"].foldl
             (fun m name => m.SetFunc name) module)),
       { w with trace := w.trace ++
           (["log", "unit_to_centi", "unit_to_meter", "centi_to_unit", "meter_to_unit"].map
             Event.SetFunc ++
            builtinGroups.map Event.Register ++
            w.luaVM.engineModuleCallbacks.map (fun c => Event.Callback c.tag)) }) := by
  simp only [engineModule, setFunc, World.emit, registerGroup_foldl]
  rw [callbackLoop_eq _ 0 _ _ rfl]
  simp

/-- The world `InitEngineModule` returns on a manager holding the instance `s`. -/
theorem InitEngineModule_eq (Register : String → Module → Module) (gameWorld : Nat) (w : World)
    (s : LuaState) (hs : w.luaVM.state = some s) :
    InitEngineModule Register gameWorld w = Outcome.returned
      { luaVM :=
          { state := some { s with modules := s.modules ++
              [w.luaVM.engineModuleCallbacks.foldl (fun m c => c.run m)
                (builtinGroups.foldl (fun m group => Register group m)
                  (["log", "unit_to_centi", "unit_to_meter", "centi_to_unit",
                    "meter_to_unit"].foldl
                    (fun m name => m.SetFunc name) { name := "blueshift", bindings := [] }))] },
            gameWorld := some gameWorld,
            engineModuleCallbacks := w.luaVM.engineModuleCallbacks },
        files := w.files, nextState := w.nextState, nextBuffer := w.nextBuffer,
        trace := w.trace ++ Event.RegisterModule s.addr "blueshift" ::
          (["log", "unit_to_centi", "unit_to_meter", "centi_to_unit", "meter_to_unit"].map
              Event.SetFunc ++
            builtinGroups.map Event.Register ++
            w.luaVM.engineModuleCallbacks.map (fun c => Event.Callback c.tag)) } := by
  simp only [InitEngineModule, hs, LuaState.RegisterModule, engineModule_eq, World.emit]
  simp

/-- The tags read back from a run of callback invocations. -/
theorem callbacksInvoked_map (cbs : List EngineModuleCallback) :
    callbacksInvoked (cbs.map (fun c => Event.Callback c.tag)) = cbs.map (fun c => c.tag) := by
  induction cbs with
  | nil => rfl
  | cons c cs ih => simp [callbacksInvoked, ih]

/-- Reading the invoked callbacks over a concatenated trace. -/
theorem callbacksInvoked_append (a b : List Event) :
    callbacksInvoked (a ++ b) = callbacksInvoked a ++ callbacksInvoked b := by
  induction a with
  | nil => rfl
  | cons e t ih => cases e <;> simp [callbacksInvoked, ih]

/-- The core bindings and the built-in groups invoke no callback. -/
theorem callbacksInvoked_builtin (addr : Nat) :
    callbacksInvoked (Event.RegisterModule addr "blueshift" ::
      (["log", "unit_to_centi", "unit_to_meter", "centi_to_unit", "meter_to_unit"].map
          Event.SetFunc ++ builtinGroups.map Event.Register)) = [] := by
  simp [callbacksInvoked, builtinGroups]

/-- C4: on an initialised manager whose extension callback list is `c1, ..., ck`,
the population of the `"blueshift"` module by `InitEngineModule` invokes
each `ci` exactly once, in list order, and only after the five core bindings
and every built-in `Register*` group have been installed.  The first part is
about the populating lambda itself, the second about the whole call. -/
theorem InitEngineModule_invokes_callbacks_in_order (Register : String → Module → Module)
    (gameWorld : Nat) (w : World) (s : LuaState) (hs : w.luaVM.state = some s) :
    (∀ module : Module,
      (engineModule Register module w).2.trace = w.trace ++
        (["log", "unit_to_centi", "unit_to_meter", "centi_to_unit", "meter_to_unit"].map
            Event.SetFunc ++
          builtinGroups.map Event.Register ++
          w.luaVM.engineModuleCallbacks.map (fun c => Event.Callback c.tag)) ∧
      (engineModule Register module w).2.luaVM = w.luaVM) ∧
    ∃ w1 new, InitEngineModule Register gameWorld w = Outcome.returned w1 ∧
      w1.trace = w.trace ++ new ∧
      new = Event.RegisterModule s.addr "blueshift" ::
        (["log", "unit_to_centi", "unit_to_meter", "centi_to_unit", "meter_to_unit"].map
            Event.SetFunc ++
          builtinGroups.map Event.Register ++
          w.luaVM.engineModuleCallbacks.map (fun c => Event.Callback c.tag)) ∧
      callbacksInvoked new = w.luaVM.engineModuleCallbacks.map (fun c => c.tag) ∧
      w1.luaVM.engineModuleCallbacks = w.luaVM.engineModuleCallbacks ∧
      w1.luaVM.gameWorld = some gameWorld ∧
      w1.luaVM.state = some { s with modules := s.modules ++
        [w.luaVM.engineModuleCallbacks.foldl (fun m c => c.run m)
          (builtinGroups.foldl (fun m group => Register group m)
            (["log", "unit_to_centi", "unit_to_meter", "centi_to_unit", "meter_to_unit"].foldl
              (fun m name => m.SetFunc name) { name := "blueshift", bindings := [] }))] } := by
  refine ⟨fun module => by rw [engineModule_eq]; exact ⟨rfl, rfl⟩,
    _, _, InitEngineModule_eq Register gameWorld w s hs, rfl, rfl, ?_, rfl, rfl, rfl⟩
  rw [← List.cons_append, callbacksInvoked_append, callbacksInvoked_builtin,
    callbacksInvoked_map, List.nil_append]

/-- The population of the module on `twoCallbacks` invokes callback 1, then
callback 2, after the 81 built-in steps. -/
theorem InitEngineModule_invokes_callbacks_in_order_witness :
    ∃ w1 new,
      InitEngineModule (fun group m => m.SetFunc group) 7 twoCallbacks = Outcome.returned w1 ∧
      w1.trace = twoCallbacks.trace ++ new ∧
      callbacksInvoked new = [1, 2] ∧
      new.drop 81 = [Event.Callback 1, Event.Callback 2] := by
  obtain ⟨_, w1, new, hr, ht, hnew, hinv, _⟩ :=
    InitEngineModule_invokes_callbacks_in_order (fun group m => m.SetFunc group) 7
      twoCallbacks _ rfl
  exact ⟨w1, new, hr, ht, hinv, by rw [hnew]; rfl⟩

/-! ## The error handler: claim C5 -/

/-- C5, as the code has it: for every status code and every message, the error
handler emits exactly one log line, at error severity, of the form
`"<kind> - <message>\n"`, and changes nothing else: it returns normally and
leaves the manager as it was.  The message part is the message up to its
first NUL character, the whole message when it has none.  The kind is the
name of the status code for the codes the `switch` lists (the
garbage-collector code only when the Lua headers define it) and is empty for
any other integer. -/
theorem exceptionHandler_logs_one_error_line (lib : LuaLib) (status : Int) (msg : String)
    (w : World) :
    exceptionHandler lib status msg w =
      { w with trace := w.trace ++
          [Event.Log Severity.error (statusStr lib status ++ " - " ++ c_str msg ++ "\n")] } ∧
    (exceptionHandler lib status msg w).luaVM = w.luaVM ∧
    (Char.ofNat 0 ∉ msg.data → c_str msg = msg) ∧
    statusStr lib status ∈
      ["LUA_ERRRUN", "LUA_ERRSYNTAX", "LUA_ERRMEM", "LUA_ERRGCMM", "LUA_ERRERR", ""] ∧
    ((caseLabels lib).Nodup →
      (status = lib.LUA_ERRRUN → statusStr lib status = "LUA_ERRRUN") ∧
      (status = lib.LUA_ERRSYNTAX → statusStr lib status = "LUA_ERRSYNTAX") ∧
      (status = lib.LUA_ERRMEM → statusStr lib status = "LUA_ERRMEM") ∧
      (502 ≤ lib.LUA_VERSION_NUM → lib.LUA_ERRGCMM = some status →
        statusStr lib status = "LUA_ERRGCMM") ∧
      (status = lib.LUA_ERRERR → statusStr lib status = "LUA_ERRERR") ∧
      (status ∉ caseLabels lib → statusStr lib status = "")) := by
  refine ⟨rfl, rfl, c_str_eq_self msg, ?_, ?_⟩
  · unfold statusStr
    split_ifs <;> simp
  · intro hd
    unfold caseLabels at hd
    unfold caseLabels statusStr
    by_cases hv : 502 ≤ lib.LUA_VERSION_NUM
    · cases hg : lib.LUA_ERRGCMM with
      | none =>
        simp only [hv, hg, Option.toList, if_true, List.append_nil, List.cons_append,
          List.nil_append, List.nodup_cons, List.mem_cons, List.mem_singleton, not_or,
          List.not_mem_nil, or_false] at hd ⊢
        refine ⟨?_, ?_, ?_, ?_, ?_, ?_⟩ <;> intros <;> subst_vars <;>
          split_ifs <;> first | rfl | (exfalso; simp_all)
      | some g =>
        simp only [hv, hg, Option.toList, if_true, List.append_nil, List.cons_append,
          List.nil_append, List.nodup_cons, List.mem_cons, List.mem_singleton, not_or,
          List.not_mem_nil, or_false, Option.some.injEq, true_and] at hd ⊢
        refine ⟨?_, ?_, ?_, ?_, ?_, ?_⟩ <;> intros <;> subst_vars <;>
          split_ifs <;> first | rfl | (exfalso; omega)
    · simp only [hv, if_false, List.append_nil, List.cons_append,
        List.nil_append, List.nodup_cons, List.mem_cons, List.mem_singleton, not_or,
        List.not_mem_nil, or_false, false_and] at hd ⊢
      refine ⟨?_, ?_, ?_, ?_, ?_, ?_⟩ <;> intros <;> subst_vars <;>
        split_ifs <;> first | rfl | (exfalso; omega) | (exfalso; simp_all)

/-- With the LuaJIT headers a runtime error with message `boom` is logged as
`LUA_ERRRUN - boom`, and status 0, which has no `case`, as ` - boom`. -/
theorem exceptionHandler_logs_one_error_line_witness :
    (caseLabels luajit21).Nodup ∧
    Char.ofNat 0 ∉ ("boom" : String).data ∧
    (exceptionHandler luajit21 2 "boom" (World.fresh noFiles)).trace =
      [Event.Log Severity.error "LUA_ERRRUN - boom\n"] ∧
    (exceptionHandler luajit21 0 "boom" (World.fresh noFiles)).trace =
      [Event.Log Severity.error " - boom\n"] ∧
    statusStr lua53 5 = "LUA_ERRGCMM" := by
  have hd : (caseLabels luajit21).Nodup := by decide
  have hd53 : (caseLabels lua53).Nodup := by decide
  have hmsg : Char.ofNat 0 ∉ ("boom" : String).data := by decide
  obtain ⟨h2, _, hc2, _, hnames⟩ :=
    exceptionHandler_logs_one_error_line luajit21 2 "boom" (World.fresh noFiles)
  obtain ⟨h0, _, hc0, _, hnames0⟩ :=
    exceptionHandler_logs_one_error_line luajit21 0 "boom" (World.fresh noFiles)
  obtain ⟨_, _, _, _, hnames53⟩ :=
    exceptionHandler_logs_one_error_line lua53 5 "boom" (World.fresh noFiles)
  refine ⟨hd, hmsg, ?_, ?_, (hnames53 hd53).2.2.2.1 (by decide) rfl⟩
  · rw [h2, (hnames hd).1 rfl, hc2 hmsg]
    rfl
  · rw [h0, (hnames0 hd).2.2.2.2.2 (by decide), hc0 hmsg]
    rfl

/-- C5, as the claim has it, fails: with the LuaJIT headers status 6
(`LUA_ERRFILE`, which the `switch` does not list) and message `boom` give the
line ` - boom`, whose kind is empty: the line is not of the form
`"<kind> - boom\n"` for any non-empty kind.  And a runtime error whose
message is `a`, NUL, `b` gives the line `LUA_ERRRUN - a`, which holds the
message only up to its NUL. -/
theorem exceptionHandler_leaves_unlisted_kind_empty :
    (exceptionHandler luajit21 6 "boom" (World.fresh noFiles)).trace =
      [Event.Log Severity.error " - boom\n"] ∧
    ¬ (∃ kind : String, kind ≠ "" ∧
      (exceptionHandler luajit21 6 "boom" (World.fresh noFiles)).trace =
        [Event.Log Severity.error (kind ++ " - " ++ "boom" ++ "\n")]) ∧
    (exceptionHandler luajit21 2 "a\x00b" (World.fresh noFiles)).trace =
      [Event.Log Severity.error "LUA_ERRRUN - a\n"] := by
  have hline : (exceptionHandler luajit21 6 "boom" (World.fresh noFiles)).trace =
      [Event.Log Severity.error " - boom\n"] := by decide
  refine ⟨hline, ?_, by decide⟩
  rintro ⟨kind, hkind, h⟩
  rw [hline] at h
  simp only [List.cons.injEq, Event.Log.injEq, true_and, and_true] at h
  have hlen := congrArg String.length h
  simp only [String.length_append] at hlen
  have h8 : (" - boom\n" : String).length = 8 := by decide
  have h3 : (" - " : String).length = 3 := by decide
  have h4 : ("boom" : String).length = 4 := by decide
  have h1 : ("\n" : String).length = 1 := by decide
  rw [h8, h3, h4, h1] at hlen
  have h0 : kind.data.length = 0 := by
    have : kind.length = 0 := by omega
    exact this
  apply hkind
  cases kind with
  | mk data =>
    simp only [List.length_eq_zero] at h0
    subst h0
    rfl

/-! ## `Shutdown` without an instance: claim C6 -/

/-- C6, as the code has it: on a manager that holds no runtime instance,
`Shutdown` returns normally, destroys nothing, leaves the (absent) instance,
the stored host context and everything outside the manager as they were, and
leaves the extension callback list empty; it is a no-op exactly when the
list was already empty. -/
theorem Shutdown_without_instance (w : World) (hs : w.luaVM.state = none) :
    (Shutdown w).luaVM.state = none ∧
    (Shutdown w).luaVM.gameWorld = w.luaVM.gameWorld ∧
    (Shutdown w).luaVM.engineModuleCallbacks = [] ∧
    (Shutdown w).trace = w.trace ∧
    (Shutdown w).files = w.files ∧
    (Shutdown w).nextState = w.nextState ∧
    (Shutdown w).nextBuffer = w.nextBuffer ∧
    (Shutdown w = w ↔ w.luaVM.engineModuleCallbacks = []) := by
  have heq : Shutdown w = { w with luaVM := { w.luaVM with engineModuleCallbacks := [] } } := by
    simp [Shutdown, SAFE_DELETE, hs]
  refine ⟨by rw [heq]; exact hs, by rw [heq], by rw [heq], by rw [heq], by rw [heq],
    by rw [heq], by rw [heq], ?_⟩
  constructor
  · intro h
    rw [← h, heq]
  · intro h
    rw [heq]
    cases w with
    | mk luaVM files nextState nextBuffer trace =>
      cases luaVM with
      | mk state gameWorld engineModuleCallbacks =>
        simp only at h
        simp [h]

/-- On a manager without an instance that has one registered callback, `Shutdown`
empties the list, and on a fresh manager it changes nothing. -/
theorem Shutdown_without_instance_witness :
    registeredBeforeInit.luaVM.state = none ∧
    (Shutdown registeredBeforeInit).luaVM.engineModuleCallbacks = [] ∧
    Shutdown (World.fresh noFiles) = World.fresh noFiles := by
  obtain ⟨_, _, hcb, _⟩ := Shutdown_without_instance registeredBeforeInit rfl
  exact ⟨rfl, hcb, rfl⟩

/-- C6, as the claim has it, fails: on a manager without an instance that has one
registered callback, `Shutdown` is not a no-op, the callback list goes from
one entry to none. -/
theorem Shutdown_without_instance_clears_callbacks :
    registeredBeforeInit.luaVM.state = none ∧
    registeredBeforeInit.luaVM.engineModuleCallbacks.length = 1 ∧
    (Shutdown registeredBeforeInit).luaVM.engineModuleCallbacks.length = 0 ∧
    Shutdown registeredBeforeInit ≠ registeredBeforeInit := by
  refine ⟨rfl, rfl, rfl, ?_⟩
  intro h
  have hlen := congrArg (fun w => w.luaVM.engineModuleCallbacks.length) h
  exact absurd hlen (by decide)

/-! ## Registering a callback: claim C7 -/

/-- C7: for every manager state and callback `c`,
`RegisterEngineModuleCallback(c)` yields the previous list with `c` appended
as its last element, invokes no callback (the trace is unchanged), and
leaves the runtime instance with its registered modules, the host context
and everything else untouched; in particular, after `InitEngineModule` the
registration invokes nothing and does not touch the populated module. -/
theorem RegisterEngineModuleCallback_appends (c : EngineModuleCallback) (w : World) :
    (RegisterEngineModuleCallback c w).luaVM.engineModuleCallbacks =
      w.luaVM.engineModuleCallbacks ++ [c] ∧
    (RegisterEngineModuleCallback c w).luaVM.state = w.luaVM.state ∧
    (RegisterEngineModuleCallback c w).luaVM.gameWorld = w.luaVM.gameWorld ∧
    (RegisterEngineModuleCallback c w).trace = w.trace ∧
    callbacksInvoked (RegisterEngineModuleCallback c w).trace = callbacksInvoked w.trace ∧
    (RegisterEngineModuleCallback c w).files = w.files ∧
    (RegisterEngineModuleCallback c w).nextState = w.nextState ∧
    (RegisterEngineModuleCallback c w).nextBuffer = w.nextBuffer ∧
    (∀ (Register : String → Module → Module) (gameWorld : Nat) (w1 : World),
      InitEngineModule Register gameWorld w = Outcome.returned w1 →
      (RegisterEngineModuleCallback c w1).trace = w1.trace ∧
      (RegisterEngineModuleCallback c w1).luaVM.state = w1.luaVM.state ∧
      (RegisterEngineModuleCallback c w1).luaVM.engineModuleCallbacks =
        w.luaVM.engineModuleCallbacks ++ [c]) := by
  refine ⟨rfl, rfl, rfl, rfl, rfl, rfl, rfl, rfl, ?_⟩
  intro Register gameWorld w1 h
  refine ⟨rfl, rfl, ?_⟩
  cases hs : w.luaVM.state with
  | none => simp [InitEngineModule, hs] at h
  | some s =>
    rw [InitEngineModule_eq Register gameWorld w s hs] at h
    injection h with h
    subst h
    rfl

/-- A callback registered on `twoCallbacks` after its module has been populated
becomes the third entry and is not invoked: the trace still shows the
invocations of callbacks 1 and 2 only. -/
theorem RegisterEngineModuleCallback_appends_witness :
    ∃ w1, InitEngineModule (fun group m => m.SetFunc group) 7 twoCallbacks =
        Outcome.returned w1 ∧
      (RegisterEngineModuleCallback (bindingCallback 3 "late") w1).trace = w1.trace ∧
      (RegisterEngineModuleCallback (bindingCallback 3 "late") w1).luaVM.state =
        w1.luaVM.state ∧
      ((RegisterEngineModuleCallback (bindingCallback 3 "late")
        w1).luaVM.engineModuleCallbacks.map (fun c => c.tag)) = [1, 2, 3] := by
  refine ⟨_, InitEngineModule_eq (fun group m => m.SetFunc group) 7 twoCallbacks _ rfl, ?_⟩
  obtain ⟨_, _, _, _, _, _, _, _, hlate⟩ :=
    RegisterEngineModuleCallback_appends (bindingCallback 3 "late") twoCallbacks
  obtain ⟨ht, hst, hcb⟩ := hlate (fun group m => m.SetFunc group) 7 _
    (InitEngineModule_eq (fun group m => m.SetFunc group) 7 twoCallbacks _ rfl)
  exact ⟨ht, hst, by rw [hcb]; rfl⟩

/-! ## Version queries after `Shutdown`: claim C8 -/

/-- What `snPrintf` leaves in a buffer of `size` characters is shorter than the
buffer. -/
theorem snPrintf_length (size : Nat) (text : String) (hsize : 0 < size) :
    (snPrintf size text).length < size := by
  have h : (snPrintf size text).length = min (size - 1) text.data.length := by
    show (List.take (size - 1) text.data).length = min (size - 1) text.data.length
    rw [List.length_take]
  omega

/-- After `Init` both version queries return, with a string of at most 31
characters. -/
theorem version_queries_after_Init (lib : LuaLib) (w : World) :
    (∃ v, GetLuaVersion lib (Init w) = Outcome.returned v ∧ v.length ≤ 31) ∧
    (∃ v, GetLuaJitVersion lib (Init w) = Outcome.returned v ∧ v.length ≤ 31) := by
  constructor
  · refine ⟨snPrintf 32
      (toString (toCInt lib.versionMajor) ++ "." ++ toString (toCInt lib.versionMinor)),
      by simp only [GetLuaVersion, Init_state], ?_⟩
    have := snPrintf_length 32
      (toString (toCInt lib.versionMajor) ++ "." ++ toString (toCInt lib.versionMinor))
      (by decide)
    omega
  · refine ⟨snPrintf 32
      (toString (toCInt lib.jitMajor) ++ "." ++ toString (toCInt lib.jitMinor) ++ "." ++
        toString (toCInt lib.jitPatch)),
      by simp only [GetLuaJitVersion, Init_state], ?_⟩
    have := snPrintf_length 32
      (toString (toCInt lib.jitMajor) ++ "." ++ toString (toCInt lib.jitMinor) ++ "." ++
        toString (toCInt lib.jitPatch))
      (by decide)
    omega

/-- C8, as the code has it: for every manager state, after `Shutdown` the manager
holds no runtime instance, and `GetLuaVersion` and `GetLuaJitVersion` do not
check for one: each calls through the null instance pointer, so the
behaviour of the call is undefined; it is not a failure that the code
detects and reports. -/
theorem version_queries_after_Shutdown (lib : LuaLib) (w : World) :
    (Shutdown w).luaVM.state = none ∧
    GetLuaVersion lib (Shutdown w) = Outcome.undefinedBehaviour ∧
    GetLuaJitVersion lib (Shutdown w) = Outcome.undefinedBehaviour ∧
    ¬ (∃ reason, GetLuaVersion lib (Shutdown w) = Outcome.failed reason) ∧
    ¬ (∃ reason, GetLuaJitVersion lib (Shutdown w) = Outcome.failed reason) := by
  have hv : GetLuaVersion lib (Shutdown w) = Outcome.undefinedBehaviour := by
    simp [GetLuaVersion, Shutdown_state]
  have hj : GetLuaJitVersion lib (Shutdown w) = Outcome.undefinedBehaviour := by
    simp [GetLuaJitVersion, Shutdown_state]
  refine ⟨Shutdown_state w, hv, hj, ?_, ?_⟩
  · rintro ⟨reason, h⟩
    rw [hv] at h
    cases h
  · rintro ⟨reason, h⟩
    rw [hj] at h
    cases h

/-- C8, as the claim has it, fails: after `Init` and `Shutdown` both version
queries run into undefined behaviour; neither ends in a failure that the
code detects and reports. -/
theorem version_queries_after_Shutdown_are_unchecked :
    GetLuaVersion luajit21 (Shutdown (Init (World.fresh noFiles))) =
      Outcome.undefinedBehaviour ∧
    GetLuaJitVersion luajit21 (Shutdown (Init (World.fresh noFiles))) =
      Outcome.undefinedBehaviour ∧
    ¬ (∃ reason,
      GetLuaVersion luajit21 (Shutdown (Init (World.fresh noFiles))) = Outcome.failed reason) ∧
    ¬ (∃ reason,
      GetLuaJitVersion luajit21 (Shutdown (Init (World.fresh noFiles))) =
        Outcome.failed reason) := by
  refine ⟨rfl, rfl, ?_, ?_⟩
  · rintro ⟨reason, h⟩
    have h1 : GetLuaVersion luajit21 (Shutdown (Init (World.fresh noFiles))) =
        Outcome.undefinedBehaviour := rfl
    rw [h1] at h
    cases h
  · rintro ⟨reason, h⟩
    have h1 : GetLuaJitVersion luajit21 (Shutdown (Init (World.fresh noFiles))) =
        Outcome.undefinedBehaviour := rfl
    rw [h1] at h
    cases h

/-! ## The callback list across `Init`: claim C10 -/

/-- The callback list after `Init`. -/
theorem Init_callbacks (w : World) :
    (Init w).luaVM.engineModuleCallbacks =
      (match w.luaVM.state with
       | some _ => []
       | none => w.luaVM.engineModuleCallbacks) := by
  cases hs : w.luaVM.state <;> simp [Init, Shutdown, SAFE_DELETE, newState, hs]

/-- C10, as the code has it: `Init` leaves the extension callback list equal to
the list before the call if and only if no runtime instance existed or the
list was already empty: on a manager without an instance the list after
`Init` equals the list before, on a manager with a live instance the list
after `Init` is empty, and then a following `InitEngineModule` invokes no
callback. -/
theorem Init_callback_list (w : World) :
    ((Init w).luaVM.engineModuleCallbacks = w.luaVM.engineModuleCallbacks ↔
      (w.luaVM.state = none ∨ w.luaVM.engineModuleCallbacks = [])) ∧
    (w.luaVM.state = none →
      (Init w).luaVM.engineModuleCallbacks = w.luaVM.engineModuleCallbacks) ∧
    (w.luaVM.state ≠ none → (Init w).luaVM.engineModuleCallbacks = []) ∧
    (w.luaVM.state ≠ none →
      ∀ (Register : String → Module → Module) (gameWorld : Nat),
        ∃ w1 new, InitEngineModule Register gameWorld (Init w) = Outcome.returned w1 ∧
          w1.trace = (Init w).trace ++ new ∧ callbacksInvoked new = []) := by
  have hcb := Init_callbacks w
  refine ⟨?_, ?_, ?_, ?_⟩
  · cases hs : w.luaVM.state with
    | none => simp [hcb, hs]
    | some s =>
      rw [hcb, hs]
      simp only [reduceCtorEq, false_or]
      exact eq_comm
  · intro hs
    rw [hcb, hs]
  · intro hs
    cases hst : w.luaVM.state with
    | none => exact absurd hst hs
    | some s => rw [hcb, hst]
  · intro hs Register gameWorld
    cases hst : w.luaVM.state with
    | none => exact absurd hst hs
    | some s =>
      have hempty : (Init w).luaVM.engineModuleCallbacks = [] := by rw [hcb, hst]
      refine ⟨_, _, InitEngineModule_eq Register gameWorld (Init w) _ (Init_state w), rfl, ?_⟩
      rw [hempty, List.map_nil, List.append_nil]
      exact callbacksInvoked_builtin _

/-- A callback registered on an initialised manager is dropped by a second `Init`
and not invoked by the `InitEngineModule` that follows; registered on a
manager without an instance it survives `Init`. -/
theorem Init_callback_list_witness :
    (RegisterEngineModuleCallback (bindingCallback 1 "first")
      (Init (World.fresh noFiles))).luaVM.state ≠ none ∧
    (Init (RegisterEngineModuleCallback (bindingCallback 1 "first")
      (Init (World.fresh noFiles)))).luaVM.engineModuleCallbacks = [] ∧
    (∃ w1 new,
      InitEngineModule (fun group m => m.SetFunc group) 7
        (Init (RegisterEngineModuleCallback (bindingCallback 1 "first")
          (Init (World.fresh noFiles)))) = Outcome.returned w1 ∧
      w1.trace = (Init (RegisterEngineModuleCallback (bindingCallback 1 "first")
          (Init (World.fresh noFiles)))).trace ++ new ∧
      callbacksInvoked new = []) ∧
    registeredBeforeInit.luaVM.state = none ∧
    (Init registeredBeforeInit).luaVM.engineModuleCallbacks =
      registeredBeforeInit.luaVM.engineModuleCallbacks := by
  have hlive : (RegisterEngineModuleCallback (bindingCallback 1 "first")
      (Init (World.fresh noFiles))).luaVM.state ≠ none := by decide
  obtain ⟨_, _, hdrop, hnone⟩ := Init_callback_list
    (RegisterEngineModuleCallback (bindingCallback 1 "first") (Init (World.fresh noFiles)))
  obtain ⟨_, hkeep, _, _⟩ := Init_callback_list registeredBeforeInit
  exact ⟨hlive, hdrop hlive, hnone hlive _ 7, rfl, hkeep rfl⟩

/-- C10, as the claim has it, fails: on an initialised manager whose callback
list is empty a second `Init` leaves the list as it was, although a runtime
instance existed before the call. -/
theorem Init_keeps_an_empty_list_with_an_instance :
    ¬ ((Init (Init (World.fresh noFiles))).luaVM.engineModuleCallbacks =
          (Init (World.fresh noFiles)).luaVM.engineModuleCallbacks ↔
        (Init (World.fresh noFiles)).luaVM.state = none) := by
  intro h
  have hnone : (Init (World.fresh noFiles)).luaVM.state = none := h.mp rfl
  exact absurd hnone (by decide)

end BE
